import Mathlib

/-!
Verification of the loop-data buffering and caching layer of
`mqtt_dashboard/mqtt_utility.py` (classes `Buffer`, `ScalarBuffer`,
`VectorBuffer`, `CachedPacket`, function `calc_trend`).

Python floats are modelled as rationals (`ℚ`) wherever the source only
adds, subtracts, multiplies, divides and compares, and as reals (`ℝ`)
for the trigonometric derived properties (`day_vec_avg`, `day_vec_dir`).
Python `None` is modelled as `Option.none`.  Dictionaries are modelled
as association lists or as functions into `Option`.
-/

/-- An observation/timestamp pair, mirroring class `ObsTuple`
(`value` at index 0, `ts` at index 1).  Entries produced by
`ScalarBuffer.add_value` always carry a non-null timestamp, so `ts`
is modelled as `ℚ` rather than `Option ℚ`. -/
structure ObsQ where
  value : ℚ
  ts : ℚ
deriving DecidableEq

/-- Class attribute `Buffer.MAX_AGE = 600` (seconds). -/
def Buffer.MAX_AGE : ℚ := 600

/-- Class attribute `Buffer.SUM_MANIFEST = ['rain', 'wind']`. -/
def Buffer.SUM_MANIFEST : List String := ["rain", "wind"]

/-- The guard `self.lasttime is None or ts >= self.lasttime` used by both
buffer classes before updating `last`/`lasttime`. -/
def lastGate (lasttime : Option ℚ) (ts : ℚ) : Bool :=
  match lasttime with
  | none => true
  | some lt => decide (lt ≤ ts)

/-- The guard `self.day_min is None or val < self.day_min`. -/
def newMin (cur : Option ℚ) (v : ℚ) : Bool :=
  match cur with
  | none => true
  | some m => decide (v < m)

/-- The guard `self.day_max is None or val > self.day_max`. -/
def newMax (cur : Option ℚ) (v : ℚ) : Bool :=
  match cur with
  | none => true
  | some m => decide (m < v)

/-- The `history_full` computation shared by both `trim_history` methods:
`min([a.ts for a in self.history if a.ts is not None]) <= oldest_ts`.
Timestamps in our model are never null, so the `is not None` filter is
vacuous.  On an empty history the source raises `ValueError`; that case
is unreachable from `add_value` (which appends before trimming), and we
return `true` there. -/
def histFull (l : List ObsQ) (oldest : ℚ) : Bool :=
  match (l.map ObsQ.ts).min? with
  | some m => decide (m ≤ oldest)
  | none => true

/-- State of one `ScalarBuffer` (class `ScalarBuffer`).  The Python class
creates `history`/`history_full` and the three sum fields only when the
corresponding tracking flag is set; here they are always present and are
simply never read when the flags are off, matching the dynamic
behaviour on every path the tracking flags allow. -/
structure ScalarBuffer where
  units : Option ℕ
  last : Option ℚ
  lasttime : Option ℚ
  day_min : Option ℚ
  day_mintime : Option ℚ
  day_max : Option ℚ
  day_maxtime : Option ℚ
  history : List ObsQ
  history_full : Bool
  day_sum : ℚ
  nineam_sum : ℚ
  interval_sum : ℚ
deriving DecidableEq

/-- `ScalarBuffer.trim_history(ts)`: recompute `history_full`, then keep
only entries with `s.ts > ts - Buffer.MAX_AGE`. -/
def ScalarBuffer.trim_history (b : ScalarBuffer) (ts : ℚ) : ScalarBuffer :=
  { b with
    history_full := histFull b.history (ts - Buffer.MAX_AGE),
    history := b.history.filter (fun s => ts - Buffer.MAX_AGE < s.ts) }

/-- The hilo section of `ScalarBuffer.add_value`: strict `<`/`>`
comparisons, a `None` extreme always loses. -/
def ScalarBuffer.updHilo (b : ScalarBuffer) (v ts : ℚ) : ScalarBuffer :=
  let b1 := if newMin b.day_min v
    then { b with day_min := some v, day_mintime := some ts } else b
  if newMax b1.day_max v
    then { b1 with day_max := some v, day_maxtime := some ts } else b1

/-- The history section of `ScalarBuffer.add_value`: append, then trim. -/
def ScalarBuffer.updHist (b : ScalarBuffer) (v ts : ℚ) : ScalarBuffer :=
  ScalarBuffer.trim_history { b with history := b.history ++ [⟨v, ts⟩] } ts

/-- `ScalarBuffer.add_value(val, ts, hilo, history, sum)`: a null value is
ignored; otherwise update `last`/`lasttime` (gated on `ts >= lasttime`),
then the day extremes (if `hilo`), then the history (if `history`), then
the three running sums (if `sum`), in source order. -/
def ScalarBuffer.add_value (b : ScalarBuffer) (val : Option ℚ) (ts : ℚ)
    (hilo hist sm : Bool) : ScalarBuffer :=
  match val with
  | none => b
  | some v =>
    let b1 := if lastGate b.lasttime ts
      then { b with last := some v, lasttime := some ts } else b
    let b2 := if hilo then ScalarBuffer.updHilo b1 v ts else b1
    let b3 := if hist then ScalarBuffer.updHist b2 v ts else b2
    if sm then
      { b3 with day_sum := b3.day_sum + v,
                nineam_sum := b3.nineam_sum + v,
                interval_sum := b3.interval_sum + v }
    else b3

/-- `ScalarBuffer.day_reset()`: clear the four hilo fields; the
`self.day_sum = 0.0` assignment never raises (Python attribute
assignment creates the attribute), so `day_sum` is set to 0. -/
def ScalarBuffer.day_reset (b : ScalarBuffer) : ScalarBuffer :=
  { b with day_min := none, day_mintime := none,
           day_max := none, day_maxtime := none, day_sum := 0 }

/-- `ScalarBuffer.nineam_reset()`. -/
def ScalarBuffer.nineam_reset (b : ScalarBuffer) : ScalarBuffer :=
  { b with nineam_sum := 0 }

/-- `ScalarBuffer.interval_reset()`. -/
def ScalarBuffer.interval_reset (b : ScalarBuffer) : ScalarBuffer :=
  { b with interval_sum := 0 }

/-- `ScalarBuffer.history_max(ts, age)`: filter the history to entries
with `a.ts >= ts - age`, then take `max(snapshot, key=itemgetter(1))`.
`itemgetter(1)` selects the TIMESTAMP component of the `ObsTuple`, so
the source maximises by timestamp (Python `max` keeps the first
maximal element on ties, modelled by the strict comparison in the
fold). -/
def ScalarBuffer.history_max (b : ScalarBuffer) (ts age : ℚ) : Option ObsQ :=
  let born := ts - age
  match b.history.filter (fun a => born ≤ a.ts) with
  | [] => none
  | hd :: tl => some (tl.foldl (fun acc s => if acc.ts < s.ts then s else acc) hd)

/-- `ScalarBuffer.history_avg(ts, age)`: the source guards on
`len(self.history) > 0` (the FULL history) but divides by the length of
the age-filtered list `rec`; when the history is non-empty but every
entry is older than `ts - age` the division `sum(rec)/len(rec)` raises
`ZeroDivisionError`, modelled as `Except.error ()`. -/
def ScalarBuffer.history_avg (b : ScalarBuffer) (ts age : ℚ) :
    Except Unit (Option ℚ) :=
  if b.history.isEmpty then Except.ok none
  else
    let rec_ := (b.history.filter (fun a => ts - age ≤ a.ts)).map ObsQ.value
    if rec_.isEmpty then Except.error ()
    else Except.ok (some (rec_.sum / rec_.length))

/-- A vector history entry: `ObsTuple((w_speed, cos_component,
sin_component), ts)` as appended by `VectorBuffer.add_value`. -/
structure VObs where
  speed : ℚ
  xc : ℚ
  yc : ℚ
  ts : ℚ
deriving DecidableEq

/-- State of one `VectorBuffer` (class `VectorBuffer`).  As for
`ScalarBuffer`, conditionally-created attributes are always present. -/
structure VectorBuffer where
  units : Option ℕ
  last : Option (ℚ × Option ℚ)
  lasttime : Option ℚ
  day_min : Option ℚ
  day_mintime : Option ℚ
  day_max : Option ℚ
  day_max_dir : Option ℚ
  day_maxtime : Option ℚ
  history : List VObs
  history_full : Bool
  day_sum : ℚ
  day_xsum : ℚ
  day_ysum : ℚ
  sumtime : ℚ
  nineam_sum : ℚ
  interval_sum : ℚ
deriving DecidableEq

/-- `VectorBuffer.trim_history(ts)`: identical logic to the scalar one. -/
def VectorBuffer.trim_history (b : VectorBuffer) (ts : ℚ) : VectorBuffer :=
  { b with
    history_full :=
      match (b.history.map VObs.ts).min? with
      | some m => decide (m ≤ ts - Buffer.MAX_AGE)
      | none => true,
    history := b.history.filter (fun s => ts - Buffer.MAX_AGE < s.ts) }

/-- The hilo section of `VectorBuffer.add_value`: the max branch also
records `day_max_dir = w_dir` (which may be null). -/
def VectorBuffer.updHilo (b : VectorBuffer) (ws : ℚ) (dir : Option ℚ)
    (ts : ℚ) : VectorBuffer :=
  let b1 := if newMin b.day_min ws
    then { b with day_min := some ws, day_mintime := some ts } else b
  if newMax b1.day_max ws
    then { b1 with day_max := some ws, day_max_dir := dir,
                   day_maxtime := some ts }
    else b1

/-- The sum section of `VectorBuffer.add_value`: `day_sum += w_speed`;
`sumtime += ts - lasttime` guarded by Python truthiness (`if
self.lasttime:` is false both for `None` and for a zero timestamp);
component sums only when the direction is non-null.  `xC`/`yC`
abstract `cos(radians(90 - w_dir))` and `sin(radians(90 - w_dir))`. -/
def VectorBuffer.updSum (xC yC : ℚ → ℚ) (b : VectorBuffer) (ws : ℚ)
    (dir : Option ℚ) (ts : ℚ) : VectorBuffer :=
  let b1 := { b with day_sum := b.day_sum + ws }
  let b2 := match b1.lasttime with
    | some lt => if lt = 0 then b1 else { b1 with sumtime := b1.sumtime + (ts - lt) }
    | none => b1
  match dir with
  | some d => { b2 with day_xsum := b2.day_xsum + ws * xC d,
                        day_ysum := b2.day_ysum + ws * yC d }
  | none => b2

/-- `VectorBuffer.add_value(val, ts, hilo, history, sum)` where
`val = (w_speed, w_dir)`: a null speed is ignored; otherwise, in source
order: hilo, history (only when `w_dir` is non-null: append the
`(speed, cos, sin)` triple then trim), sums, and finally
`last`/`lasttime` gated on `ts >= lasttime`. -/
def VectorBuffer.add_value (xC yC : ℚ → ℚ) (b : VectorBuffer)
    (val : Option ℚ × Option ℚ) (ts : ℚ) (hilo hist sm : Bool) : VectorBuffer :=
  match val.1 with
  | none => b
  | some ws =>
    let b1 := if hilo then VectorBuffer.updHilo b ws val.2 ts else b
    let b2 := if hist then
        match val.2 with
        | some d =>
          VectorBuffer.trim_history
            { b1 with history := b1.history ++ [⟨ws, xC d, yC d, ts⟩] } ts
        | none => b1
      else b1
    let b3 := if sm then VectorBuffer.updSum xC yC b2 ws val.2 ts else b2
    if lastGate b3.lasttime ts
      then { b3 with last := some (ws, val.2), lasttime := some ts } else b3

/-- `VectorBuffer.day_reset()`: clear the five hilo fields
(`day_min, day_mintime, day_max, day_max_dir, day_maxtime`) and set
`day_sum = 0.0` (the assignment never raises `AttributeError`). -/
def VectorBuffer.day_reset (b : VectorBuffer) : VectorBuffer :=
  { b with day_min := none, day_mintime := none, day_max := none,
           day_max_dir := none, day_maxtime := none, day_sum := 0 }

/-- `VectorBuffer.nineam_reset()`. -/
def VectorBuffer.nineam_reset (b : VectorBuffer) : VectorBuffer :=
  { b with nineam_sum := 0 }

/-- `VectorBuffer.interval_reset()`. -/
def VectorBuffer.interval_reset (b : VectorBuffer) : VectorBuffer :=
  { b with interval_sum := 0 }

/-- A buffered observation: either a `ScalarBuffer` or a `VectorBuffer`
(class `Buffer` is a `dict` mapping observation names to one of the
two). -/
inductive ObsBuf where
  | scalar (sb : ScalarBuffer) : ObsBuf
  | vector (vb : VectorBuffer) : ObsBuf
deriving DecidableEq

/-- State of a `Buffer` instance: the dict contents plus the instance
attributes set in `Buffer.__init__`. -/
structure Buffer where
  entries : List (String × ObsBuf)
  primary_unit_system : ℕ
  last_windSpeed_ts : Option ℚ
  windrun : ℚ
deriving DecidableEq

/-- The names bound at module level in `mqtt_utility.py` (imports,
functions, classes and the three configuration dicts).  Inside a method
body a bare name that is not a local resolves against these, then
against the builtins. -/
def moduleLevelNames : List String :=
  ["math", "socket", "ssl", "syslog", "time", "urllib2", "urlparse",
   "mqtt", "weewx", "ValueTuple", "convert",
   "logmsg", "logcrit", "logdbg", "logdbg2", "logdbg3", "loginf", "logerr",
   "MissingApiKey", "UnknownServer", "FailedPost",
   "MQTTPublish", "WeatherUndergroundAPI", "Buffer", "VectorBuffer",
   "ScalarBuffer", "init_dict", "add_functions", "seed_functions",
   "ObsTuple", "CachedPacket", "calc_trend", "obfuscate_password"]

/-- Python builtins a bare name could fall back to (Python names are
case-sensitive: the builtin is `sum`, not `SUM`). -/
def pythonBuiltins : List String :=
  ["sum", "min", "max", "len", "list", "dict", "tuple", "float", "int",
   "str", "range", "sorted", "abs", "pow", "round"]

/-- Errors a modelled Python call can raise. -/
inductive PyErr where
  | nameError : PyErr
deriving DecidableEq

/-- Apply `nineam_reset()` to the entry stored under `obs` (what the
loop body `self[obs].nineam_reset()` does for one manifest member). -/
def Buffer.reset_nineam_entry (b : Buffer) (obs : String) : Buffer :=
  { b with entries := b.entries.map (fun kv =>
      if kv.1 = obs then
        (kv.1, match kv.2 with
               | ObsBuf.scalar sb => ObsBuf.scalar sb.nineam_reset
               | ObsBuf.vector vb => ObsBuf.vector vb.nineam_reset)
      else kv) }

/-- `Buffer.nineam_reset()`: the body is `for obs in SUM:
self[obs].nineam_reset()`.  The bare name `SUM` has no local binding,
no module-level binding (the manifest is the class attribute
`Buffer.SUM_MANIFEST`, not reachable as a bare name) and is no builtin,
so CPython raises `NameError` before the loop body runs.  The `.ok`
branch is dead code kept only to give the `if` both arms. -/
def Buffer.nineam_reset (b : Buffer) : Except PyErr Buffer :=
  if "SUM" ∈ moduleLevelNames ∨ "SUM" ∈ pythonBuiltins then
    Except.ok (Buffer.SUM_MANIFEST.foldl Buffer.reset_nineam_entry b)
  else
    Except.error PyErr.nameError

/-- The windrun section of `Buffer.add_wind_value` (the method's other
sections delegate to `add_value`, embedded separately).  The source is:

    if 'windSpeed' in packet:
        try:
            self.windrun += packet['windSpeed'] * (packet['dateTime'] - self.last_windSpeed_ts)/1000.0
        except TypeError:
            pass
        self.last_windSpeed_ts = packet['dateTime']

`windSpeed` is `none` when the key is absent, `some none` when present
with a null value (the `TypeError` from `None * ...` is swallowed, as
is the one from a null `last_windSpeed_ts`). -/
def Buffer.add_wind_windrun (b : Buffer) (windSpeed : Option (Option ℚ))
    (dateTime : ℚ) : Buffer :=
  match windSpeed with
  | none => b
  | some wsv =>
    let wr := match wsv, b.last_windSpeed_ts with
      | some ws, some lt => b.windrun + ws * (dateTime - lt) / 1000
      | _, _ => b.windrun
    { b with windrun := wr, last_windSpeed_ts := some dateTime }

/-- One cached `{value, ts}` pair of a `CachedPacket` (a cached value
may itself be null, e.g. from `__init__` priming). -/
structure CacheEntry where
  value : Option ℚ
  ts : ℚ
deriving DecidableEq

/-- A loop packet: its unit system, and its remaining fields as an
association list (iterated in order, as Python iterates the dict);
a field mapped to `none` is present with a null value, a name absent
from the list is absent from the packet. -/
structure Packet where
  usUnits : ℕ
  fields : List (String × Option ℚ)
deriving DecidableEq

/-- State of a `CachedPacket`: the cache dict (as a function to model
arbitrary key insertion) and the unit system. -/
structure CachedPacket where
  cache : String → Option CacheEntry
  unit_system : Option ℕ

/-- Class attribute `CachedPacket.OBS`. -/
def CachedPacket.OBS : List String :=
  ["cloudbase", "windDir", "windrun", "inHumidity", "outHumidity",
   "barometer", "radiation", "rain", "rainRate", "windSpeed",
   "appTemp", "dewpoint", "heatindex", "humidex", "inTemp",
   "outTemp", "windchill", "UV"]

/-- A record used to prime the cache in `CachedPacket.__init__`:
`dateTime` and `usUnits` may be absent, the other fields are an
association list as in `Packet`. -/
structure InitRec where
  dateTime : Option ℚ
  usUnits : Option ℕ
  fields : List (String × Option ℚ)
deriving DecidableEq

/-- `CachedPacket.__init__(rec)`: prime exactly the `OBS` fields; a
field gets the record's value when the field and `usUnits` are both
present in the record, else a null placeholder; all entries carry the
record's `dateTime` (or the wall-clock fallback `nowFallback` when the
record has none).  `unit_system` is the record's, when present. -/
def CachedPacket.init (rec : InitRec) (nowFallback : ℚ) : CachedPacket :=
  let ts := rec.dateTime.getD nowFallback
  { cache := fun k =>
      if k ∈ CachedPacket.OBS then
        match List.lookup k rec.fields, rec.usUnits with
        | some v, some _ => some ⟨v, ts⟩
        | _, _ => some ⟨none, ts⟩
      else none,
    unit_system := rec.usUnits }

/-- One step of the update loop of `CachedPacket.update`: a field named
`dateTime`/`usUnits` is skipped, a null value is skipped, a non-null
value overwrites the cache entry under that name with `{value, ts}`. -/
def updateField (ts : ℚ) (cc : String → Option CacheEntry)
    (kv : String × Option ℚ) : String → Option CacheEntry :=
  if kv.1 = "dateTime" ∨ kv.1 = "usUnits" then cc
  else
    match kv.2 with
    | none => cc
    | some v => fun k => if k = kv.1 then some ⟨some v, ts⟩ else cc k

/-- The update loop of `CachedPacket.update` over all packet fields. -/
def updateFields (cache : String → Option CacheEntry)
    (fields : List (String × Option ℚ)) (ts : ℚ) : String → Option CacheEntry :=
  fields.foldl (updateField ts) cache

/-- Dictionary access `packet[k]` on the association-list model:
the first binding of `k`, `none` when `k` is absent. -/
def lookupField (k : String) : List (String × Option ℚ) → Option (Option ℚ)
  | [] => none
  | kv :: rest => if kv.1 = k then some kv.2 else lookupField k rest

/-- `CachedPacket.update(packet, ts)`: adopt the packet's unit system if
the cache has none; convert the packet (modelled by the abstract
`conv`, standing for `weewx.units.to_std_system`) when the systems
differ; then run the update loop. -/
def CachedPacket.update (conv : Packet → ℕ → Packet) (c : CachedPacket)
    (packet : Packet) (ts : ℚ) : CachedPacket :=
  match c.unit_system with
  | none =>
    { cache := updateFields c.cache packet.fields ts,
      unit_system := some packet.usUnits }
  | some u =>
    let pkt := if packet.usUnits ≠ u then conv packet u else packet
    { c with cache := updateFields c.cache pkt.fields ts }

/-- `CachedPacket.get_value(obs, ts, max_age)`: the cached value when
the entry exists and `ts - entry.ts <= max_age`, else `None`. -/
def CachedPacket.get_value (c : CachedPacket) (obs : String)
    (ts max_age : ℚ) : Option ℚ :=
  match c.cache obs with
  | some e => if ts - e.ts ≤ max_age then e.value else none
  | none => none

/-- A `ValueTuple(value, unit, group)` as used by `calc_trend`; the
group plays no role in the control flow and is omitted. -/
structure ValueT where
  value : Option ℚ
  unit : String
deriving DecidableEq

/-- An archive record as returned by `db_manager.getRecord`: its unit
system plus observation fields (`none` = absent). -/
structure DbRecord where
  usUnits : ℕ
  fields : String → Option ℚ

/-- `calc_trend(obs_type, now_vt, units, db_manager, then_ts, grace)`.
The external collaborators are abstracted: `getRecord` models
`db_manager.getRecord`, `asVT` models `weewx.units.as_value_tuple`, and
`conv` models `weewx.units.convert(..., units).value`.  The function is
pure: it only reads through these lookups. -/
def calc_trend (conv : ValueT → String → ℚ) (asVT : DbRecord → String → ValueT)
    (getRecord : ℚ → ℚ → Option DbRecord)
    (obs_type : String) (now_vt : ValueT) (units : String)
    (then_ts grace : ℚ) : Option ℚ :=
  match now_vt.value with
  | none => none
  | some _ =>
    match getRecord then_ts grace with
    | none => none
    | some r =>
      match r.fields obs_type with
      | none => none
      | some _ => some (conv now_vt units - conv (asVT r obs_type) units)

/-- Feeding a sequence of non-null (value, timestamp) samples to a
`ScalarBuffer` with hilo tracking enabled, as `Buffer.add_value` does
for every packet containing the observation. -/
def processScalar (b : ScalarBuffer) (hist sm : Bool)
    (l : List (ℚ × ℚ)) : ScalarBuffer :=
  l.foldl (fun bb p => bb.add_value (some p.1) p.2 true hist sm) b

/-- `math.atan2(y, x)` over the reals, via the argument of the complex
number `x + y*i` (range `(-π, π]`, `atan2 0 0 = 0`, matching the C
library on the reals). -/
noncomputable def atan2 (y x : ℝ) : ℝ := Complex.arg ⟨x, y⟩

/-- Property `VectorBuffer.day_vec_avg`:
`math.sqrt((self.day_xsum**2 + self.day_ysum**2) / self.sumtime**2)`,
as a function of the three stored fields (floats modelled as reals). -/
noncomputable def VectorBuffer.day_vec_avg (xsum ysum sumtime : ℝ) : ℝ :=
  Real.sqrt ((xsum ^ 2 + ysum ^ 2) / sumtime ^ 2)

/-- Property `VectorBuffer.day_vec_dir`:
`_dir = 90.0 - math.degrees(math.atan2(self.day_ysum, self.day_xsum))`,
then `_dir += 360.0` if negative. -/
noncomputable def VectorBuffer.day_vec_dir (xsum ysum : ℝ) : ℝ :=
  let d := 90 - (atan2 ysum xsum) * (180 / Real.pi)
  if d < 0 then d + 360 else d

lemma updHilo_day_min (b : ScalarBuffer) (v ts : ℚ) :
    (b.updHilo v ts).day_min = if newMin b.day_min v then some v else b.day_min := by
  unfold ScalarBuffer.updHilo
  cases h : newMin b.day_min v <;> simp [h] <;> split <;> rfl

lemma updHilo_day_mintime (b : ScalarBuffer) (v ts : ℚ) :
    (b.updHilo v ts).day_mintime
      = if newMin b.day_min v then some ts else b.day_mintime := by
  unfold ScalarBuffer.updHilo
  cases h : newMin b.day_min v <;> simp [h] <;> split <;> rfl

lemma updHilo_day_max (b : ScalarBuffer) (v ts : ℚ) :
    (b.updHilo v ts).day_max = if newMax b.day_max v then some v else b.day_max := by
  unfold ScalarBuffer.updHilo
  cases h : newMin b.day_min v <;> cases h2 : newMax b.day_max v <;> simp [h, h2]

lemma updHilo_day_maxtime (b : ScalarBuffer) (v ts : ℚ) :
    (b.updHilo v ts).day_maxtime
      = if newMax b.day_max v then some ts else b.day_maxtime := by
  unfold ScalarBuffer.updHilo
  cases h : newMin b.day_min v <;> cases h2 : newMax b.day_max v <;> simp [h, h2]

lemma updHilo_history (b : ScalarBuffer) (v ts : ℚ) :
    (b.updHilo v ts).history = b.history := by
  unfold ScalarBuffer.updHilo
  cases h : newMin b.day_min v <;> cases h2 : newMax b.day_max v <;> simp [h, h2]

lemma updHist_day_min (b : ScalarBuffer) (v ts : ℚ) :
    (b.updHist v ts).day_min = b.day_min := rfl

lemma updHist_day_mintime (b : ScalarBuffer) (v ts : ℚ) :
    (b.updHist v ts).day_mintime = b.day_mintime := rfl

lemma updHist_day_max (b : ScalarBuffer) (v ts : ℚ) :
    (b.updHist v ts).day_max = b.day_max := rfl

lemma updHist_day_maxtime (b : ScalarBuffer) (v ts : ℚ) :
    (b.updHist v ts).day_maxtime = b.day_maxtime := rfl

lemma add_value_day_min (b : ScalarBuffer) (v ts : ℚ) (hist sm : Bool) :
    (b.add_value (some v) ts true hist sm).day_min
      = if newMin b.day_min v then some v else b.day_min := by
  unfold ScalarBuffer.add_value
  cases hl : lastGate b.lasttime ts <;> cases hist <;> cases sm <;>
    simp [hl, updHilo_day_min, updHist_day_min]

lemma add_value_day_mintime (b : ScalarBuffer) (v ts : ℚ) (hist sm : Bool) :
    (b.add_value (some v) ts true hist sm).day_mintime
      = if newMin b.day_min v then some ts else b.day_mintime := by
  unfold ScalarBuffer.add_value
  cases hl : lastGate b.lasttime ts <;> cases hist <;> cases sm <;>
    simp [hl, updHilo_day_mintime, updHist_day_mintime]

lemma add_value_day_max (b : ScalarBuffer) (v ts : ℚ) (hist sm : Bool) :
    (b.add_value (some v) ts true hist sm).day_max
      = if newMax b.day_max v then some v else b.day_max := by
  unfold ScalarBuffer.add_value
  cases hl : lastGate b.lasttime ts <;> cases hist <;> cases sm <;>
    simp [hl, updHilo_day_max, updHist_day_max]

lemma add_value_day_maxtime (b : ScalarBuffer) (v ts : ℚ) (hist sm : Bool) :
    (b.add_value (some v) ts true hist sm).day_maxtime
      = if newMax b.day_max v then some ts else b.day_maxtime := by
  unfold ScalarBuffer.add_value
  cases hl : lastGate b.lasttime ts <;> cases hist <;> cases sm <;>
    simp [hl, updHilo_day_maxtime, updHist_day_maxtime]

lemma add_value_history (b : ScalarBuffer) (v ts : ℚ) (hilo sm : Bool) :
    (b.add_value (some v) ts hilo true sm).history
      = (b.history ++ [(⟨v, ts⟩ : ObsQ)]).filter
          (fun s => ts - Buffer.MAX_AGE < s.ts) := by
  unfold ScalarBuffer.add_value ScalarBuffer.updHist ScalarBuffer.trim_history
  cases hl : lastGate b.lasttime ts <;> cases hilo <;> cases sm <;>
    simp [hl, updHilo_history]

lemma processScalar_append (b : ScalarBuffer) (hist sm : Bool)
    (l : List (ℚ × ℚ)) (x : ℚ × ℚ) :
    processScalar b hist sm (l ++ [x])
      = (processScalar b hist sm l).add_value (some x.1) x.2 true hist sm := by
  simp [processScalar]

lemma processScalar_min (hist sm : Bool) (l : List (ℚ × ℚ)) :
    ∀ (b : ScalarBuffer), l ≠ [] → b.day_min = none →
    ∃ mn, (processScalar b hist sm l).day_min = some mn ∧
      (∀ p ∈ l, mn ≤ p.1) ∧
      ∃ l1 p l2, l = l1 ++ p :: l2 ∧ p.1 = mn ∧
        (processScalar b hist sm l).day_mintime = some p.2 ∧
        ∀ q ∈ l1, mn < q.1 := by
  induction l using List.reverseRecOn with
  | nil => intro b h _; exact absurd rfl h
  | append_singleton l x ih =>
    intro b _ hmin
    by_cases hl : l = []
    · subst hl
      simp only [List.nil_append]
      have he : processScalar b hist sm [x]
          = b.add_value (some x.1) x.2 true hist sm := rfl
      have h1 : (processScalar b hist sm [x]).day_min = some x.1 := by
        rw [he, add_value_day_min, hmin]; rfl
      have h2 : (processScalar b hist sm [x]).day_mintime = some x.2 := by
        rw [he, add_value_day_mintime, hmin]; rfl
      exact ⟨x.1, h1, by simp, [], x, [], by simp, rfl, h2, by simp⟩
    · obtain ⟨mn, hBmin, henv, l1, p, l2, hsplit, hval, hBtime, hfirst⟩ :=
        ih b hl hmin
      rw [processScalar_append]
      by_cases hx : x.1 < mn
      · refine ⟨x.1, ?_, ?_, l, x, [], by simp, rfl, ?_, ?_⟩
        · rw [add_value_day_min, hBmin]; simp [newMin, hx]
        · intro p' hp'
          rcases List.mem_append.1 hp' with h | h
          · exact le_trans hx.le (henv p' h)
          · simp at h; subst h; exact le_refl _
        · rw [add_value_day_mintime, hBmin]; simp [newMin, hx]
        · intro q hq; exact lt_of_lt_of_le hx (henv q hq)
      · have hge : mn ≤ x.1 := not_lt.1 hx
        refine ⟨mn, ?_, ?_, l1, p, l2 ++ [x], by simp [hsplit], hval, ?_, hfirst⟩
        · rw [add_value_day_min, hBmin]; simp [newMin, hx]
        · intro p' hp'
          rcases List.mem_append.1 hp' with h | h
          · exact henv p' h
          · simp at h; subst h; exact hge
        · rw [add_value_day_mintime, hBmin]
          simp only [newMin, decide_eq_true_eq]
          rw [if_neg hx]
          exact hBtime

lemma processScalar_max (hist sm : Bool) (l : List (ℚ × ℚ)) :
    ∀ (b : ScalarBuffer), l ≠ [] → b.day_max = none →
    ∃ mx, (processScalar b hist sm l).day_max = some mx ∧
      (∀ p ∈ l, p.1 ≤ mx) ∧
      ∃ l1 p l2, l = l1 ++ p :: l2 ∧ p.1 = mx ∧
        (processScalar b hist sm l).day_maxtime = some p.2 ∧
        ∀ q ∈ l1, q.1 < mx := by
  induction l using List.reverseRecOn with
  | nil => intro b h _; exact absurd rfl h
  | append_singleton l x ih =>
    intro b _ hmax
    by_cases hl : l = []
    · subst hl
      simp only [List.nil_append]
      have he : processScalar b hist sm [x]
          = b.add_value (some x.1) x.2 true hist sm := rfl
      have h1 : (processScalar b hist sm [x]).day_max = some x.1 := by
        rw [he, add_value_day_max, hmax]; rfl
      have h2 : (processScalar b hist sm [x]).day_maxtime = some x.2 := by
        rw [he, add_value_day_maxtime, hmax]; rfl
      exact ⟨x.1, h1, by simp, [], x, [], by simp, rfl, h2, by simp⟩
    · obtain ⟨mx, hBmax, henv, l1, p, l2, hsplit, hval, hBtime, hfirst⟩ :=
        ih b hl hmax
      rw [processScalar_append]
      by_cases hx : mx < x.1
      · refine ⟨x.1, ?_, ?_, l, x, [], by simp, rfl, ?_, ?_⟩
        · rw [add_value_day_max, hBmax]; simp [newMax, hx]
        · intro p' hp'
          rcases List.mem_append.1 hp' with h | h
          · exact le_trans (henv p' h) hx.le
          · simp at h; subst h; exact le_refl _
        · rw [add_value_day_maxtime, hBmax]; simp [newMax, hx]
        · intro q hq; exact lt_of_le_of_lt (henv q hq) hx
      · have hge : x.1 ≤ mx := not_lt.1 hx
        refine ⟨mx, ?_, ?_, l1, p, l2 ++ [x], by simp [hsplit], hval, ?_, hfirst⟩
        · rw [add_value_day_max, hBmax]; simp [newMax, hx]
        · intro p' hp'
          rcases List.mem_append.1 hp' with h | h
          · exact henv p' h
          · simp at h; subst h; exact hge
        · rw [add_value_day_maxtime, hBmax]
          simp only [newMax, decide_eq_true_eq]
          rw [if_neg hx]
          exact hBtime

/-- After a run, the day minimum envelops every fed value and its
timestamp is the first sample that achieved it (all strictly earlier
samples are strictly larger). -/
def minAchieved (B : ScalarBuffer) (l : List (ℚ × ℚ)) : Prop :=
  ∃ mn, B.day_min = some mn ∧ (∀ p ∈ l, mn ≤ p.1) ∧
    ∃ l1 p l2, l = l1 ++ p :: l2 ∧ p.1 = mn ∧ B.day_mintime = some p.2 ∧
      ∀ q ∈ l1, mn < q.1

/-- Dual of `minAchieved` for the day maximum. -/
def maxAchieved (B : ScalarBuffer) (l : List (ℚ × ℚ)) : Prop :=
  ∃ mx, B.day_max = some mx ∧ (∀ p ∈ l, p.1 ≤ mx) ∧
    ∃ l1 p l2, l = l1 ++ p :: l2 ∧ p.1 = mx ∧ B.day_maxtime = some p.2 ∧
      ∀ q ∈ l1, q.1 < mx

/-- C1: feeding any non-empty sequence of non-null scalar values (with
hilo tracking enabled) to a `ScalarBuffer` whose hilo fields are
cleared (as `day_reset()` leaves them) yields
`day_max >= every fed value >= day_min`, and `day_maxtime`/`day_mintime`
are the timestamps of the first fed values achieving the respective
extremes (extremes move only under strict comparison, and the first
value sets both). -/
theorem C1_scalar_day_extremes (b : ScalarBuffer) (hist sm : Bool)
    (l : List (ℚ × ℚ))
    (hcl : b.day_min = none ∧ b.day_mintime = none ∧
           b.day_max = none ∧ b.day_maxtime = none)
    (hne : l ≠ []) :
    minAchieved (processScalar b hist sm l) l ∧
    maxAchieved (processScalar b hist sm l) l :=
  ⟨processScalar_min hist sm l b hne hcl.1,
   processScalar_max hist sm l b hne hcl.2.2.1⟩

/-- Witness for C1 at a concrete run (cleared buffer, three samples). -/
theorem C1_scalar_day_extremes_witness :
    (((⟨none, none, none, none, none, none, none, [], false, 0, 0, 0⟩ :
        ScalarBuffer).day_min = none ∧
      (⟨none, none, none, none, none, none, none, [], false, 0, 0, 0⟩ :
        ScalarBuffer).day_mintime = none ∧
      (⟨none, none, none, none, none, none, none, [], false, 0, 0, 0⟩ :
        ScalarBuffer).day_max = none ∧
      (⟨none, none, none, none, none, none, none, [], false, 0, 0, 0⟩ :
        ScalarBuffer).day_maxtime = none) ∧
     ([((5 : ℚ), (100 : ℚ)), (3, 200), (7, 300)] ≠ ([] : List (ℚ × ℚ))) ∧
     (minAchieved (processScalar
        ⟨none, none, none, none, none, none, none, [], false, 0, 0, 0⟩
        true false [(5, 100), (3, 200), (7, 300)])
        [(5, 100), (3, 200), (7, 300)] ∧
      maxAchieved (processScalar
        ⟨none, none, none, none, none, none, none, [], false, 0, 0, 0⟩
        true false [(5, 100), (3, 200), (7, 300)])
        [(5, 100), (3, 200), (7, 300)])) :=
  ⟨⟨rfl, rfl, rfl, rfl⟩, by simp,
   C1_scalar_day_extremes _ true false _ ⟨rfl, rfl, rfl, rfl⟩ (by simp)⟩

lemma vec_updHilo_history (b : VectorBuffer) (ws : ℚ) (dir : Option ℚ)
    (ts : ℚ) : (b.updHilo ws dir ts).history = b.history := by
  unfold VectorBuffer.updHilo
  cases h : newMin b.day_min ws <;> cases h2 : newMax b.day_max ws <;>
    simp [h, h2]

lemma vec_updSum_history (xC yC : ℚ → ℚ) (b : VectorBuffer) (ws : ℚ)
    (dir : Option ℚ) (ts : ℚ) :
    (VectorBuffer.updSum xC yC b ws dir ts).history = b.history := by
  unfold VectorBuffer.updSum
  cases dir <;> cases h : b.lasttime <;> simp [h] <;> split <;> rfl

lemma vec_add_value_history (xC yC : ℚ → ℚ) (b : VectorBuffer)
    (ws d ts : ℚ) (hilo sm : Bool) :
    (VectorBuffer.add_value xC yC b (some ws, some d) ts hilo true sm).history
      = (b.history ++ [(⟨ws, xC d, yC d, ts⟩ : VObs)]).filter
          (fun s => ts - Buffer.MAX_AGE < s.ts) := by
  unfold VectorBuffer.add_value VectorBuffer.trim_history
  cases hilo <;> cases sm <;>
    simp [vec_updHilo_history, vec_updSum_history] <;> split <;>
    simp [vec_updHilo_history, vec_updSum_history]

/-- C7: after any `add_value` of a non-null value (with a non-null
direction in the vector case) on a history-tracking buffer, every
entry retained in the history is strictly younger than `MAX_AGE`
(600 s) relative to the add's timestamp. -/
theorem C7_history_trim_invariant :
    (∀ (b : ScalarBuffer) (v ts : ℚ) (hilo sm : Bool) (s : ObsQ),
      s ∈ (b.add_value (some v) ts hilo true sm).history →
      ts - s.ts < Buffer.MAX_AGE) ∧
    (∀ (xC yC : ℚ → ℚ) (b : VectorBuffer) (ws d ts : ℚ) (hilo sm : Bool)
      (s : VObs),
      s ∈ (VectorBuffer.add_value xC yC b (some ws, some d) ts hilo true sm).history →
      ts - s.ts < Buffer.MAX_AGE) := by
  constructor
  · intro b v ts hilo sm s hs
    rw [add_value_history] at hs
    have h2 := of_decide_eq_true (List.mem_filter.1 hs).2
    linarith
  · intro xC yC b ws d ts hilo sm s hs
    rw [vec_add_value_history] at hs
    have h2 := of_decide_eq_true (List.mem_filter.1 hs).2
    linarith

/-- Witness for C7: one concrete scalar add retains the fresh entry,
which is 0 seconds old. -/
theorem C7_history_trim_invariant_witness :
    ((⟨5, 100⟩ : ObsQ) ∈
      ((⟨none, none, none, none, none, none, none, [], false, 0, 0, 0⟩ :
        ScalarBuffer).add_value (some 5) 100 true true false).history) ∧
    (100 : ℚ) - (100 : ℚ) < Buffer.MAX_AGE := by
  have hm : (⟨5, 100⟩ : ObsQ) ∈
      ((⟨none, none, none, none, none, none, none, [], false, 0, 0, 0⟩ :
        ScalarBuffer).add_value (some 5) 100 true true false).history := by
    rw [add_value_history]
    norm_num [Buffer.MAX_AGE]
  exact ⟨hm, C7_history_trim_invariant.1
    ⟨none, none, none, none, none, none, none, [], false, 0, 0, 0⟩
    5 100 true false ⟨5, 100⟩ hm⟩

/-- C2 (code bug): `Buffer.nineam_reset` iterates `for obs in SUM:`, but
`SUM` is bound nowhere — not a local, not one of the module-level names
of `mqtt_utility.py` (the manifest is the class attribute
`Buffer.SUM_MANIFEST`, which a bare name cannot reach) and not a Python
builtin — so every call raises `NameError` instead of zeroing the
`nineam_sum` of the sum-tracked observations. -/
theorem C2_nineam_reset_raises (b : Buffer) :
    Buffer.nineam_reset b = Except.error PyErr.nameError := by
  have h : ¬("SUM" ∈ moduleLevelNames ∨ "SUM" ∈ pythonBuiltins) := by decide
  unfold Buffer.nineam_reset
  rw [if_neg h]

/-- C3 (code bug): feeding `windSpeed=10` at `t=0` then `windSpeed=20`
at `t=3600` to the windrun section of `Buffer.add_wind_value` leaves
the windrun increased by `20 * 3600 / 1000 = 72`, not by the
`10 km/h * 1 h = 10 km` the claim requires: the code multiplies the
NEW packet speed (not the pre-update speed) and divides by `1000.0`
(not by the `3600.0` that `seed_windrun` documents as the
speed-seconds-to-km factor).  The first add, with no previous
timestamp, is skipped without error, as the claim states. -/
theorem C3_windrun_increment_eval :
    ((Buffer.mk [] 1 none 0).add_wind_windrun (some (some 10)) 0).windrun = 0 ∧
    (((Buffer.mk [] 1 none 0).add_wind_windrun (some (some 10)) 0).add_wind_windrun
      (some (some 20)) 3600).windrun = 72 ∧
    ((72 : ℚ) ≠ 10) := by
  refine ⟨rfl, ?_, by norm_num⟩
  show (0 : ℚ) + 20 * (3600 - 0) / 1000 = 72
  norm_num

/-- C9 (code bug): on a history `[(5, 100), (3, 200)]`,
`history_max(200, 600)` returns the entry `(3, 200)` — the entry with
the greatest TIMESTAMP (`max(..., key=itemgetter(1))`), not the
greatest value `(5, 100)` — and on a non-empty history `[(5, 100)]`
whose entries all fall outside the age window, `history_avg(1000, 600)`
raises `ZeroDivisionError` instead of returning null. -/
theorem C9_history_lookup_eval :
    (ScalarBuffer.mk none none none none none none none
        [⟨5, 100⟩, ⟨3, 200⟩] false 0 0 0).history_max 200 600
      = some ⟨3, 200⟩ ∧
    (ScalarBuffer.mk none none none none none none none
        [⟨5, 100⟩, ⟨3, 200⟩] false 0 0 0).history_max 200 600
      ≠ some ⟨5, 100⟩ ∧
    (ScalarBuffer.mk none none none none none none none
        [⟨5, 100⟩] false 0 0 0).history_avg 1000 600
      = Except.error () := by
  refine ⟨?_, ?_, ?_⟩
  · unfold ScalarBuffer.history_max
    norm_num
  · unfold ScalarBuffer.history_max
    norm_num
  · unfold ScalarBuffer.history_avg
    norm_num

/-- C10: `VectorBuffer.day_reset()` nulls exactly
`day_min, day_mintime, day_max, day_max_dir, day_maxtime`, zeroes
`day_sum`, and leaves `day_xsum, day_ysum, sumtime, nineam_sum,
interval_sum, last, lasttime, units, history` unchanged; consequently
the derived day vector average and direction (functions of
`day_xsum/day_ysum/sumtime` only) are unchanged by the reset. -/
theorem C10_vector_day_reset_frame (b : VectorBuffer) :
    b.day_reset.day_min = none ∧ b.day_reset.day_mintime = none ∧
    b.day_reset.day_max = none ∧ b.day_reset.day_max_dir = none ∧
    b.day_reset.day_maxtime = none ∧ b.day_reset.day_sum = 0 ∧
    b.day_reset.day_xsum = b.day_xsum ∧ b.day_reset.day_ysum = b.day_ysum ∧
    b.day_reset.sumtime = b.sumtime ∧
    b.day_reset.nineam_sum = b.nineam_sum ∧
    b.day_reset.interval_sum = b.interval_sum ∧
    b.day_reset.last = b.last ∧ b.day_reset.lasttime = b.lasttime ∧
    b.day_reset.units = b.units ∧ b.day_reset.history = b.history ∧
    VectorBuffer.day_vec_avg (b.day_reset.day_xsum : ℝ)
        (b.day_reset.day_ysum : ℝ) (b.day_reset.sumtime : ℝ)
      = VectorBuffer.day_vec_avg (b.day_xsum : ℝ) (b.day_ysum : ℝ)
          (b.sumtime : ℝ) ∧
    VectorBuffer.day_vec_dir (b.day_reset.day_xsum : ℝ)
        (b.day_reset.day_ysum : ℝ)
      = VectorBuffer.day_vec_dir (b.day_xsum : ℝ) (b.day_ysum : ℝ) :=
  ⟨rfl, rfl, rfl, rfl, rfl, rfl, rfl, rfl, rfl, rfl, rfl, rfl, rfl, rfl,
   rfl, rfl, rfl⟩

/-- C8: for positive `sum_time` the stored
`sqrt((xsum^2 + ysum^2) / sumtime^2)` equals
`sqrt(xsum^2 + ysum^2) / sumtime`, and the derived direction (compass
bearing of `atan2(ysum, xsum)`) always lies in `[0, 360)`. -/
theorem C8_day_vec_properties (xsum ysum sumtime : ℝ) (h : 0 < sumtime) :
    VectorBuffer.day_vec_avg xsum ysum sumtime
      = Real.sqrt (xsum ^ 2 + ysum ^ 2) / sumtime ∧
    0 ≤ VectorBuffer.day_vec_dir xsum ysum ∧
    VectorBuffer.day_vec_dir xsum ysum < 360 := by
  refine ⟨?_, ?_⟩
  · unfold VectorBuffer.day_vec_avg
    rw [Real.sqrt_div (by positivity), Real.sqrt_sq h.le]
  · unfold VectorBuffer.day_vec_dir
    have hpi : 0 < Real.pi := Real.pi_pos
    have harg := Complex.arg_mem_Ioc ⟨xsum, ysum⟩
    rw [Set.mem_Ioc] at harg
    have hkey : Real.pi * (180 / Real.pi) = 180 := by field_simp
    have hkey2 : -Real.pi * (180 / Real.pi) = -180 := by
      field_simp
      ring
    have hpos : (0 : ℝ) < 180 / Real.pi := by positivity
    have hdeg1 : atan2 ysum xsum * (180 / Real.pi) ≤ 180 := by
      calc atan2 ysum xsum * (180 / Real.pi)
          ≤ Real.pi * (180 / Real.pi) :=
            mul_le_mul_of_nonneg_right harg.2 hpos.le
        _ = 180 := hkey
    have hdeg2 : -180 < atan2 ysum xsum * (180 / Real.pi) := by
      calc (-180 : ℝ) = -Real.pi * (180 / Real.pi) := hkey2.symm
        _ < atan2 ysum xsum * (180 / Real.pi) :=
            mul_lt_mul_of_pos_right harg.1 hpos
    dsimp only
    split
    · constructor <;> linarith
    · constructor <;> linarith

/-- Witness for C8 at `xsum = 3`, `ysum = 4`, `sumtime = 1`. -/
theorem C8_day_vec_properties_witness :
    (0 : ℝ) < 1 ∧
    (VectorBuffer.day_vec_avg 3 4 1 = Real.sqrt (3 ^ 2 + 4 ^ 2) / 1 ∧
     0 ≤ VectorBuffer.day_vec_dir 3 4 ∧ VectorBuffer.day_vec_dir 3 4 < 360) :=
  ⟨by norm_num, C8_day_vec_properties 3 4 1 (by norm_num)⟩

/-- C6: `calc_trend` returns null when the current value is null, null
when the record lookup at the reference timestamp finds nothing, null
when the observation is absent from the returned record, and otherwise
exactly (current converted to the target unit) minus (historical
converted to the target unit).  The embedding is a pure function of the
abstract lookup/conversion collaborators: no state is mutated. -/
theorem C6_calc_trend_cases (conv : ValueT → String → ℚ)
    (asVT : DbRecord → String → ValueT) (getRecord : ℚ → ℚ → Option DbRecord)
    (obs_type : String) (now_vt : ValueT) (units : String)
    (then_ts grace : ℚ) :
    (now_vt.value = none →
      calc_trend conv asVT getRecord obs_type now_vt units then_ts grace
        = none) ∧
    (getRecord then_ts grace = none →
      calc_trend conv asVT getRecord obs_type now_vt units then_ts grace
        = none) ∧
    (∀ r, getRecord then_ts grace = some r → r.fields obs_type = none →
      calc_trend conv asVT getRecord obs_type now_vt units then_ts grace
        = none) ∧
    (∀ r v w, now_vt.value = some v → getRecord then_ts grace = some r →
      r.fields obs_type = some w →
      calc_trend conv asVT getRecord obs_type now_vt units then_ts grace
        = some (conv now_vt units - conv (asVT r obs_type) units)) := by
  refine ⟨?_, ?_, ?_, ?_⟩
  · intro h
    unfold calc_trend
    rw [h]
  · intro h
    unfold calc_trend
    cases hv : now_vt.value <;> simp [h]
  · intro r hr hf
    unfold calc_trend
    cases hv : now_vt.value <;> simp [hr, hf]
  · intro r v w hv hr hf
    unfold calc_trend
    rw [hv, hr]
    dsimp only
    rw [hf]

/-- Witness for C6: a stub store holding `outTemp = 3`, identity-style
conversion reading off the raw value, current value `5`: the trend is
`5 - 3 = 2`. -/
theorem C6_calc_trend_cases_witness :
    calc_trend (fun vt _ => vt.value.getD 0) (fun r o => ⟨r.fields o, "x"⟩)
      (fun _ _ => some ⟨1, fun o => if o = "outTemp" then some 3 else none⟩)
      "outTemp" ⟨some 5, "x"⟩ "x" 0 0 = some (5 - 3) := by
  have h := (C6_calc_trend_cases (fun vt _ => vt.value.getD 0)
    (fun r o => ⟨r.fields o, "x"⟩)
    (fun _ _ => some ⟨1, fun o => if o = "outTemp" then some 3 else none⟩)
    "outTemp" ⟨some 5, "x"⟩ "x" 0 0).2.2.2
    ⟨1, fun o => if o = "outTemp" then some 3 else none⟩ 5 3 rfl rfl (by simp)
  simpa using h

lemma updateField_apply (ts : ℚ) (cc : String → Option CacheEntry)
    (kv : String × Option ℚ) (k : String) :
    updateField ts cc kv k =
      if kv.1 = "dateTime" ∨ kv.1 = "usUnits" then cc k
      else
        match kv.2 with
        | none => cc k
        | some v => if k = kv.1 then some ⟨some v, ts⟩ else cc k := by
  unfold updateField
  by_cases h : kv.1 = "dateTime" ∨ kv.1 = "usUnits"
  · rw [if_pos h, if_pos h]
  · rw [if_neg h, if_neg h]
    cases h2 : kv.2 <;> rfl

lemma updateFields_cons (cc : String → Option CacheEntry)
    (kv : String × Option ℚ) (rest : List (String × Option ℚ)) (ts : ℚ) :
    updateFields cc (kv :: rest) ts
      = updateFields (updateField ts cc kv) rest ts := rfl

lemma updateFields_skip (obs : String) (ts : ℚ) :
    ∀ (fields : List (String × Option ℚ)) (cc : String → Option CacheEntry),
      (∀ kv ∈ fields, kv.1 = obs → kv.2 = none) →
      updateFields cc fields ts obs = cc obs := by
  intro fields
  induction fields with
  | nil => intro cc _; rfl
  | cons kv rest ih =>
    intro cc h
    have hrest : ∀ kv2 ∈ rest, kv2.1 = obs → kv2.2 = none :=
      fun kv2 hk => h kv2 (List.mem_cons_of_mem _ hk)
    have h1 : updateField ts cc kv obs = cc obs := by
      rw [updateField_apply]
      split
      · rfl
      · cases h2 : kv.2 with
        | none => rfl
        | some v =>
          have hne : obs ≠ kv.1 := by
            intro he
            have h3 := h kv (List.mem_cons_self kv rest) he.symm
            rw [h2] at h3
            exact Option.noConfusion h3
          dsimp only
          rw [if_neg hne]
    rw [updateFields_cons, ih (updateField ts cc kv) hrest, h1]

lemma update_preserves_obs (conv : Packet → ℕ → Packet) (c : CachedPacket)
    (u : ℕ) (p : Packet) (ts : ℚ) (obs : String)
    (hu : c.unit_system = some u) (hpu : p.usUnits = u)
    (hobs : ∀ kv ∈ p.fields, kv.1 = obs → kv.2 = none) :
    (CachedPacket.update conv c p ts).cache obs = c.cache obs ∧
    (CachedPacket.update conv c p ts).unit_system = some u := by
  unfold CachedPacket.update
  rw [hu]
  dsimp only
  rw [if_neg (by simp [hpu])]
  exact ⟨updateFields_skip obs ts p.fields c.cache hobs, rfl⟩

lemma get_value_congr (c c' : CachedPacket) (obs : String) (ts ma : ℚ)
    (h : c'.cache obs = c.cache obs) :
    c'.get_value obs ts ma = c.get_value obs ts ma := by
  unfold CachedPacket.get_value
  rw [h]

lemma updates_preserve_get_value (conv : Packet → ℕ → Packet) (u : ℕ)
    (obs : String) (ts ma : ℚ) :
    ∀ (l : List (Packet × ℚ)) (c : CachedPacket), c.unit_system = some u →
      (∀ pr ∈ l, pr.1.usUnits = u ∧
        ∀ kv ∈ pr.1.fields, kv.1 = obs → kv.2 = none) →
      (l.foldl (fun cc pr => CachedPacket.update conv cc pr.1 pr.2) c).get_value
          obs ts ma
        = c.get_value obs ts ma := by
  intro l
  induction l with
  | nil => intro c _ _; rfl
  | cons pr rest ih =>
    intro c hu hl
    have hmem := hl pr (List.mem_cons_self pr rest)
    have h1 := update_preserves_obs conv c u pr.1 pr.2 obs hu hmem.1 hmem.2
    have hrest : ∀ pr2 ∈ rest, pr2.1.usUnits = u ∧
        ∀ kv ∈ pr2.1.fields, kv.1 = obs → kv.2 = none :=
      fun pr2 hk => hl pr2 (List.mem_cons_of_mem _ hk)
    show (rest.foldl _ (CachedPacket.update conv c pr.1 pr.2)).get_value obs ts ma
      = c.get_value obs ts ma
    rw [ih (CachedPacket.update conv c pr.1 pr.2) h1.2 hrest]
    exact get_value_congr c _ obs ts ma h1.1

/-- C4: for a cached observation, `get_value(obs, ts, max_age)` returns
the cached value when `ts - entry.ts <= max_age` and null when the
entry is older, and the cached entry (hence the returned value) is
unaffected by any number of subsequent updates whose packets omit the
observation or carry it as null. -/
theorem C4_cache_freshness (c : CachedPacket) (obs : String) (e : CacheEntry)
    (ts max_age : ℚ) (hc : c.cache obs = some e) :
    (ts - e.ts ≤ max_age → c.get_value obs ts max_age = e.value) ∧
    (max_age < ts - e.ts → c.get_value obs ts max_age = none) ∧
    (∀ (conv : Packet → ℕ → Packet) (u : ℕ) (l : List (Packet × ℚ)),
      c.unit_system = some u →
      (∀ pr ∈ l, pr.1.usUnits = u ∧
        ∀ kv ∈ pr.1.fields, kv.1 = obs → kv.2 = none) →
      (l.foldl (fun cc pr => CachedPacket.update conv cc pr.1 pr.2) c).get_value
          obs ts max_age
        = c.get_value obs ts max_age) := by
  refine ⟨?_, ?_, ?_⟩
  · intro h
    unfold CachedPacket.get_value
    rw [hc]
    dsimp only
    rw [if_pos h]
  · intro h
    unfold CachedPacket.get_value
    rw [hc]
    dsimp only
    rw [if_neg (not_le.2 h)]
  · intro conv u l hu hl
    exact updates_preserve_get_value conv u obs ts max_age l c hu hl

/-- Witness for C4 at a concrete one-entry cache. -/
theorem C4_cache_freshness_witness :
    ((⟨fun k => if k = "outTemp" then some ⟨some 20, 1000⟩ else none,
        some 1⟩ : CachedPacket).cache "outTemp" = some ⟨some 20, 1000⟩) ∧
    (((1500 : ℚ) - 1000 ≤ 600 →
      (⟨fun k => if k = "outTemp" then some ⟨some 20, 1000⟩ else none,
        some 1⟩ : CachedPacket).get_value "outTemp" 1500 600 = some 20) ∧
     ((600 : ℚ) < 1500 - 1000 →
      (⟨fun k => if k = "outTemp" then some ⟨some 20, 1000⟩ else none,
        some 1⟩ : CachedPacket).get_value "outTemp" 1500 600 = none) ∧
     (∀ (conv : Packet → ℕ → Packet) (u : ℕ) (l : List (Packet × ℚ)),
      (⟨fun k => if k = "outTemp" then some ⟨some 20, 1000⟩ else none,
        some 1⟩ : CachedPacket).unit_system = some u →
      (∀ pr ∈ l, pr.1.usUnits = u ∧
        ∀ kv ∈ pr.1.fields, kv.1 = "outTemp" → kv.2 = none) →
      (l.foldl (fun cc pr => CachedPacket.update conv cc pr.1 pr.2)
          (⟨fun k => if k = "outTemp" then some ⟨some 20, 1000⟩ else none,
            some 1⟩ : CachedPacket)).get_value "outTemp" 1500 600
        = (⟨fun k => if k = "outTemp" then some ⟨some 20, 1000⟩ else none,
            some 1⟩ : CachedPacket).get_value "outTemp" 1500 600)) :=
  ⟨by simp, C4_cache_freshness _ "outTemp" ⟨some 20, 1000⟩ 1500 600 (by simp)⟩

/-- C5 counterexample: a packet carrying the non-null field `foo`,
which is NOT in the tracked set `CachedPacket.OBS`, IS cached by
`update` (the loop iterates every packet field except
`dateTime`/`usUnits`), so the cache's key set does not stay equal to
the tracked set. -/
theorem C5_nontracked_field_is_cached :
    (CachedPacket.init ⟨some 1000, some 1, [("outTemp", some 20)]⟩ 0).cache "foo"
      = none ∧
    (CachedPacket.update (fun p _ => p)
        (CachedPacket.init ⟨some 1000, some 1, [("outTemp", some 20)]⟩ 0)
        ⟨1, [("foo", some 7)]⟩ 2000).cache "foo"
      = some ⟨some 7, 2000⟩ ∧
    "foo" ∉ CachedPacket.OBS := by
  refine ⟨?_, ?_, ?_⟩
  · simp [CachedPacket.init, CachedPacket.OBS]
  · simp [CachedPacket.update, CachedPacket.init, updateFields, updateField]
  · simp [CachedPacket.OBS]

lemma lookupField_eq_none (k : String) :
    ∀ (l : List (String × Option ℚ)), k ∉ l.map Prod.fst →
      lookupField k l = none := by
  intro l
  induction l with
  | nil => intro _; rfl
  | cons kv rest ih =>
    intro h
    have h1 : kv.1 ≠ k := by
      intro he
      exact h (by simp [he])
    have h2 : k ∉ rest.map Prod.fst := fun hm => h (by simp [hm])
    simp [lookupField, h1, ih h2]

lemma updateFields_apply (ts : ℚ) (k : String) :
    ∀ (fields : List (String × Option ℚ)) (cc : String → Option CacheEntry),
      (fields.map Prod.fst).Nodup →
      updateFields cc fields ts k =
        if k = "dateTime" ∨ k = "usUnits" then cc k
        else
          match lookupField k fields with
          | some (some v) => some ⟨some v, ts⟩
          | some none => cc k
          | none => cc k := by
  intro fields
  induction fields with
  | nil =>
    intro cc _
    by_cases hk : k = "dateTime" ∨ k = "usUnits" <;>
      simp [hk, updateFields, lookupField]
  | cons kv rest ih =>
    intro cc hnd
    have hnd2 := (List.nodup_cons.1 hnd).2
    have hkv_not : kv.1 ∉ rest.map Prod.fst := (List.nodup_cons.1 hnd).1
    rw [updateFields_cons, ih (updateField ts cc kv) hnd2]
    by_cases hk : k = "dateTime" ∨ k = "usUnits"
    · rw [if_pos hk, if_pos hk]
      rw [updateField_apply]
      split
      · rfl
      · cases h2 : kv.2 with
        | none => rfl
        | some v =>
          dsimp only
          rw [if_neg (by
            intro he
            rename_i hm
            exact hm (by rw [← he]; exact hk))]
    · rw [if_neg hk, if_neg hk]
      by_cases hkv : kv.1 = k
      · have hlr : lookupField k rest = none :=
          lookupField_eq_none k rest (hkv ▸ hkv_not)
        rw [hlr]
        dsimp only
        rw [updateField_apply]
        have hm : ¬(kv.1 = "dateTime" ∨ kv.1 = "usUnits") := by
          rw [hkv]; exact hk
        rw [if_neg hm]
        have hlc : lookupField k (kv :: rest) = some kv.2 := by
          simp [lookupField, hkv]
        rw [hlc]
        cases h2 : kv.2 with
        | none => rfl
        | some v =>
          dsimp only
          rw [if_pos hkv.symm]
      · have h1 : updateField ts cc kv k = cc k := by
          rw [updateField_apply]
          split
          · rfl
          · cases h2 : kv.2 with
            | none => rfl
            | some v =>
              dsimp only
              rw [if_neg (fun he => hkv he.symm)]
        have hlc : lookupField k (kv :: rest) = lookupField k rest := by
          simp [lookupField, hkv]
        rw [hlc, h1]

/-- C5 (amended): for a packet already in the cache's unit system (with
each field name appearing once, as in a Python dict), `update`
overwrites the cached `{value, ts}` for EVERY non-null field other than
the `dateTime`/`usUnits` markers — including fields outside the tracked
set `OBS`, which are added to the cache — while null fields and absent
fields leave their cache entries unchanged, and the unit system is
unchanged.  (The original claim's "fields not in the fixed tracked set
are ignored" is refuted by `C5_nontracked_field_is_cached`.) -/
theorem C5_update_characterisation (conv : Packet → ℕ → Packet)
    (c : CachedPacket) (u : ℕ) (p : Packet) (ts : ℚ) (k : String)
    (hu : c.unit_system = some u) (hpu : p.usUnits = u)
    (hnd : (p.fields.map Prod.fst).Nodup) :
    (CachedPacket.update conv c p ts).cache k =
      (if k = "dateTime" ∨ k = "usUnits" then c.cache k
       else
         match lookupField k p.fields with
         | some (some v) => some ⟨some v, ts⟩
         | some none => c.cache k
         | none => c.cache k) ∧
    (CachedPacket.update conv c p ts).unit_system = some u := by
  unfold CachedPacket.update
  rw [hu]
  dsimp only
  rw [if_neg (by simp [hpu])]
  exact ⟨updateFields_apply ts k p.fields c.cache hnd, rfl⟩

/-- Witness for C5 (amended) at a concrete cache, packet and key. -/
theorem C5_update_characterisation_witness :
    ((⟨fun k => if k = "rain" then some ⟨some 1, 500⟩ else none,
        some 1⟩ : CachedPacket).unit_system = some 1) ∧
    ((⟨1, [("rain", some 2)]⟩ : Packet).usUnits = 1) ∧
    (((⟨1, [("rain", some 2)]⟩ : Packet).fields.map Prod.fst).Nodup) ∧
    ((CachedPacket.update (fun p _ => p)
        (⟨fun k => if k = "rain" then some ⟨some 1, 500⟩ else none,
          some 1⟩ : CachedPacket)
        ⟨1, [("rain", some 2)]⟩ 900).cache "rain"
      = (if ("rain" : String) = "dateTime" ∨ ("rain" : String) = "usUnits"
         then (⟨fun k => if k = "rain" then some ⟨some 1, 500⟩ else none,
            some 1⟩ : CachedPacket).cache "rain"
         else
           match lookupField "rain" [("rain", some 2)] with
           | some (some v) => some ⟨some v, 900⟩
           | some none => (⟨fun k => if k = "rain" then some ⟨some 1, 500⟩
               else none, some 1⟩ : CachedPacket).cache "rain"
           | none => (⟨fun k => if k = "rain" then some ⟨some 1, 500⟩
               else none, some 1⟩ : CachedPacket).cache "rain") ∧
     (CachedPacket.update (fun p _ => p)
        (⟨fun k => if k = "rain" then some ⟨some 1, 500⟩ else none,
          some 1⟩ : CachedPacket)
        ⟨1, [("rain", some 2)]⟩ 900).unit_system = some 1) :=
  ⟨rfl, rfl, by simp,
   C5_update_characterisation (fun p _ => p) _ 1 _ 900 "rain" rfl rfl (by simp)⟩
